import Mathlib

/-!
Verification of the Bluesky list-migration tool (src/mig.py) against its
natural-language specification.

The Python source is shallowly embedded: the remote server is modelled as a
list of responses consumed in order, one response per loop iteration; every
side effect the UI layer can observe (status blocks, inline messages,
progress updates, remote record-creation calls) is reified as an `Event` in
an ordered trace; exceptions raised by the client library are modelled as
explicit error constructors in the response/outcome types.
-/

namespace BskyMig

/-- Every operator-visible effect and every remote record-creation call of a
run, in the order the Python code performs them.  `statusStart` is an
`st.status(...)` block opening, `statusUpdate` its final label,
`writeMsg`/`errorMsg`/`warnMsg`/`infoMsg`/`successMsg` are the
corresponding `st.*` message calls, `createListCall` is the
`create_record` call for the list container, `memberAddCall` the
`create_record` call for one membership record, `progressStart` the
`st.progress(0, ...)` creation (carrying the total), `progressUpd` an
in-loop `progress_bar.progress(...)` update (items processed, total,
failures so far), and `progressClear` the final `progress_bar.empty()`. -/
inductive Event where
  | statusStart : String → Event
  | statusUpdate : String → Event
  | writeMsg : String → Event
  | errorMsg : String → Event
  | warnMsg : String → Event
  | infoMsg : String → Event
  | successMsg : String → Event
  | createListCall : Event
  | memberAddCall : String → Event
  | progressStart : Nat → Event
  | progressUpd : Nat → Nat → Nat → Event
  | progressClear : Event
deriving DecidableEq, Repr

/-- One page of an `app.bsky.graph.getList` response: the member DIDs of the
page (`item.subject.did` for each item) and the pagination cursor. -/
structure Page where
  items : List String
  cursor : Option String
deriving DecidableEq, Repr

/-- The result of one `client.app.bsky.graph.get_list(params)` call:
`ok none` is a falsy response object, `ok (some p)` a page, and
`err proto msg` an exception (`proto = true` for `AtProtocolError`,
`false` for any other `Exception`). -/
inductive FetchResult where
  | ok : Option Page → FetchResult
  | err : Bool → String → FetchResult
deriving DecidableEq, Repr

/-- Python falsiness of `response.cursor`: `None` or the empty string. -/
def cursorFalsy : Option String → Bool
  | none => true
  | some s => s == ""

/-- The `st.error` message emitted by `get_list_members` for a page-fetch
exception, by exception kind. -/
def fetchErrEvent (listUri : String) : Bool → String → Event
  | true, msg => .errorMsg ("Error fetching list members from " ++ listUri ++ ": " ++ msg)
  | false, msg => .errorMsg ("An unexpected error occurred while fetching members: " ++ msg)

/-- The `while True` loop of `get_list_members`, consuming server responses
in order with `acc` the `members` accumulator: a falsy response or an empty
item list breaks with the members so far; otherwise the page items are
appended and a falsy cursor breaks; an exception aborts the whole listing
with `none` and the corresponding `st.error` event. -/
def getListMembersGo (listUri : String) : List FetchResult → List String → Option (List String) × List Event
  | [], acc => (some acc, [])
  | FetchResult.err proto msg :: _, _ => (none, [fetchErrEvent listUri proto msg])
  | FetchResult.ok none :: _, acc => (some acc, [])
  | FetchResult.ok (some p) :: rest, acc =>
    if p.items.isEmpty then (some acc, [])
    else if cursorFalsy p.cursor then (some (acc ++ p.items), [])
    else getListMembersGo listUri rest (acc ++ p.items)

/-- Shallow embedding of `get_list_members(client, list_uri)`: the client is
replaced by the list of responses the server would return to the successive
page requests. -/
def get_list_members (listUri : String) (responses : List FetchResult) : Option (List String) × List Event :=
  getListMembersGo listUri responses []

/-- Concatenation of the member identifiers of a list of pages, in order. -/
def pageConcat : List Page → List String
  | [] => []
  | p :: ps => p.items ++ pageConcat ps

/-- A page on which the pagination loop keeps going: a nonempty item list
and a cursor that is not falsy. -/
def pageNonTerminal (p : Page) : Prop := p.items ≠ [] ∧ cursorFalsy p.cursor = false

instance (p : Page) : Decidable (pageNonTerminal p) := by
  unfold pageNonTerminal; infer_instance

/-- The outcome of the `create_record` call for one membership record:
success, an `AtProtocolError`, or any other `Exception` (with message). -/
inductive AddOutcome where
  | ok : AddOutcome
  | protoErr : String → AddOutcome
  | otherErr : String → AddOutcome
deriving DecidableEq, Repr

/-- Whether a per-item outcome is a success. -/
def AddOutcome.isOk : AddOutcome → Bool
  | .ok => true
  | _ => false

/-- The `st.warning` text emitted for a failed member add, by outcome kind
(unused for a success). -/
def warnText (did : String) : AddOutcome → String
  | .ok => ""
  | .protoErr m => "Failed to add member " ++ did ++ ": " ++ m
  | .otherErr m => "Unexpected error adding member " ++ did ++ ": " ++ m

/-- Number of failures among the `n` per-item outcomes starting at index
`i`. -/
def failTally (outcome : Nat → AddOutcome) : Nat → Nat → Nat
  | _, 0 => 0
  | i, n+1 => (if (outcome i).isOk then 0 else 1) + failTally outcome (i+1) n

/-- The `for i, member_did in enumerate(members)` loop of
`add_members_to_list`: per item, the `create_record` call is issued; a
success bumps `success_count`, an exception bumps `fail_count` and emits the
warning; the `finally` block always emits the progress update carrying
(items processed, total, failures so far). -/
def addMembersGo (outcome : Nat → AddOutcome) (total : Nat) :
    List String → Nat → Nat → Nat → (Nat × Nat) × List Event
  | [], _, s, f => ((s, f), [])
  | did :: rest, i, s, f =>
    match outcome i with
    | .ok =>
      let r := addMembersGo outcome total rest (i+1) (s+1) f
      (r.1, Event.memberAddCall did :: Event.progressUpd (i+1) total f :: r.2)
    | .protoErr m =>
      let r := addMembersGo outcome total rest (i+1) s (f+1)
      (r.1, Event.memberAddCall did :: Event.warnMsg (warnText did (.protoErr m))
        :: Event.progressUpd (i+1) total (f+1) :: r.2)
    | .otherErr m =>
      let r := addMembersGo outcome total rest (i+1) s (f+1)
      (r.1, Event.memberAddCall did :: Event.warnMsg (warnText did (.otherErr m))
        :: Event.progressUpd (i+1) total (f+1) :: r.2)

/-- Shallow embedding of `add_members_to_list(client, list_uri, members)`:
the client's per-call behaviour is replaced by the per-index outcome
function.  Returns the `(success_count, fail_count)` pair and the trace:
progress-bar creation, the per-item events, and the final
`progress_bar.empty()`. -/
def add_members_to_list (outcome : Nat → AddOutcome) (members : List String) :
    (Nat × Nat) × List Event :=
  ((addMembersGo outcome members.length members 0 0 0).1,
    Event.progressStart members.length
      :: (addMembersGo outcome members.length members 0 0 0).2 ++ [Event.progressClear])

/-- The member DIDs for which a `create_record` call was issued, in order. -/
def attemptedDids (evs : List Event) : List String :=
  evs.filterMap fun e =>
    match e with
    | Event.memberAddCall d => some d
    | _ => none

/-- Whether an event is an in-loop progress update (the only place the
`(i + 1) / total` fraction is computed). -/
def isProgressUpd : Event → Bool
  | Event.progressUpd _ _ _ => true
  | _ => false

/-- A UTC wall-clock reading, as `datetime.now(timezone.utc)` observes it
(microsecond in `[0, 1000000)` on a real clock; the theorems hold for all
component values). -/
structure UtcTime where
  year : Nat
  month : Nat
  day : Nat
  hour : Nat
  minute : Nat
  second : Nat
  microsecond : Nat
deriving DecidableEq, Repr

/-- Decimal digit characters of a natural number, most significant first;
fuel-structured so that the kernel can evaluate it (the fuel never runs out
for the initial `n + 1` supply). -/
def natDigitsGo : Nat → Nat → List Char
  | 0, _ => []
  | fuel+1, n =>
    if n < 10 then [Nat.digitChar n]
    else natDigitsGo fuel (n / 10) ++ [Nat.digitChar (n % 10)]

/-- Decimal digit characters of `n`, most significant first. -/
def natDigits (n : Nat) : List Char := natDigitsGo (n + 1) n

/-- `n` printed in Python `"%0*d"` style: zero-padded to `width`. -/
def padNum (width n : Nat) : List Char :=
  List.replicate (width - (natDigits n).length) '0' ++ natDigits n

/-- The date-time body of Python `datetime.isoformat()`:
`YYYY-MM-DDTHH:MM:SS`, followed by `.` and six microsecond digits exactly
when the microsecond component is nonzero. -/
def isoDateTimeChars (t : UtcTime) : List Char :=
  padNum 4 t.year ++ '-' :: padNum 2 t.month ++ '-' :: padNum 2 t.day
    ++ 'T' :: padNum 2 t.hour ++ ':' :: padNum 2 t.minute ++ ':' :: padNum 2 t.second
    ++ (if t.microsecond = 0 then [] else '.' :: padNum 6 t.microsecond)

/-- The UTC offset suffix `+00:00` that `isoformat()` appends for a
`timezone.utc`-aware datetime. -/
def utcOffsetChars : List Char := ['+', '0', '0', ':', '0', '0']

/-- Full `datetime.now(timezone.utc).isoformat()` output. -/
def isoformatChars (t : UtcTime) : List Char := isoDateTimeChars t ++ utcOffsetChars

/-- Python `str.replace(pat, rep)`: scan left to right, replacing every
non-overlapping occurrence of `pat`; fuel-structured for kernel
evaluation (the initial fuel, the string length plus one, never runs
out). -/
def replaceAllGo (pat rep : List Char) : Nat → List Char → List Char
  | 0, s => s
  | _+1, [] => []
  | fuel+1, c :: rest =>
    if pat ≠ [] ∧ pat.isPrefixOf (c :: rest) then
      rep ++ replaceAllGo pat rep fuel ((c :: rest).drop pat.length)
    else
      c :: replaceAllGo pat rep fuel rest

/-- Python `s.replace(pat, rep)` on character lists. -/
def replaceAll (pat rep s : List Char) : List Char := replaceAllGo pat rep (s.length + 1) s

/-- The characters of the `createdAt` value the code stamps:
`datetime.now(timezone.utc).isoformat().replace("+00:00", "Z")`. -/
def stampChars (t : UtcTime) : List Char := replaceAll utcOffsetChars ['Z'] (isoformatChars t)

/-- The stamped `createdAt` string. -/
def stampTimestamp (t : UtcTime) : String := String.mk (stampChars t)

/-- The character classes that can occur in the isoformat date-time body. -/
def tsCharOk (c : Char) : Bool := c.isDigit || c == '-' || c == ':' || c == 'T' || c == '.'

/-- Same without the dot: the classes occurring when the microsecond part is
absent. -/
def tsCharNoDot (c : Char) : Bool := c.isDigit || c == '-' || c == ':' || c == 'T'

/-- The namespace tag the purpose is normalized into. -/
def graphDefsNs : String := "app.bsky.graph.defs#"

/-- Python `str.startswith`, as a character-list prefix test. -/
def strStartsWith (s pfx : String) : Bool := pfx.toList.isPrefixOf s.toList

/-- Lines 43-44 of `create_new_list`: the purpose is left unchanged when it
already starts with the namespace tag, and is namespaced otherwise. -/
def normalizePurpose (purpose : String) : String :=
  if strStartsWith purpose graphDefsNs then purpose else graphDefsNs ++ purpose

/-- The `AppBskyGraphList.Record` payload built by `create_new_list`. -/
structure ListRecord where
  name : String
  purpose : String
  description : String
  createdAt : String
deriving DecidableEq, Repr

/-- The `AppBskyGraphListitem.Record` payload built per member by
`add_members_to_list`. -/
structure ListItemRecord where
  subject : String
  list : String
  createdAt : String
deriving DecidableEq, Repr

/-- The list record `create_new_list` sends, given the wall clock reading
at the `datetime.now(timezone.utc)` call. -/
def create_list_record (name description purpose : String) (now : UtcTime) : ListRecord :=
  { name := name
    purpose := normalizePurpose purpose
    description := description
    createdAt := stampTimestamp now }

/-- The membership record `add_members_to_list` sends for one member, given
the wall clock reading at its `datetime.now(timezone.utc)` call. -/
def create_list_item_record (subjectDid listUri : String) (now : UtcTime) : ListItemRecord :=
  { subject := subjectDid
    list := listUri
    createdAt := stampTimestamp now }

/-- Result of a `client.login(handle, password)` call: success (yielding
`client.me.handle` and `client.me.did`), an `AtProtocolError`, or any other
`Exception`. -/
inductive LoginResult where
  | ok : String → String → LoginResult
  | errProto : String → LoginResult
  | errOther : String → LoginResult
deriving DecidableEq, Repr

/-- Result of the `create_record` call for the list container: success
(yielding `response.uri`), an `AtProtocolError`, or any other
`Exception`. -/
inductive CreateResult where
  | ok : String → CreateResult
  | errProto : String → CreateResult
  | errOther : String → CreateResult
deriving DecidableEq, Repr

/-- The validated text-input fields of the form. -/
structure Inputs where
  sourceHandle : String
  sourcePassword : String
  sourceListUri : String
  destHandle : String
  destPassword : String
  destListName : String
  destListPurpose : String
  destListDesc : String
deriving DecidableEq, Repr

/-- The `if not (source_handle and ... and dest_list_purpose)` check of the
button handler (the description field is not required): all required
fields are truthy, i.e. non-empty. -/
def requiredPresent (inp : Inputs) : Bool :=
  !(inp.sourceHandle == "") && !(inp.sourcePassword == "") && !(inp.sourceListUri == "")
    && !(inp.destHandle == "") && !(inp.destPassword == "") && !(inp.destListName == "")
    && !(inp.destListPurpose == "")

/-- One run's environment: the form inputs plus the behaviour the remote
service would exhibit at each call the pipeline can make. -/
structure Env where
  inputs : Inputs
  sourceLogin : LoginResult
  pages : List FetchResult
  destLogin : LoginResult
  createResult : CreateResult
  addOutcome : Nat → AddOutcome

/-- One login stage of the button handler (steps 1 and 3): the status
block, the attempt message, then either the logged-in message and success
label, or the account-specific error and failure label. -/
def loginStage (label acct handle : String) (r : LoginResult) : List Event × Bool :=
  match r with
  | .ok h d =>
    ([Event.statusStart label, Event.writeMsg ("Attempting login for " ++ handle ++ "..."),
      Event.writeMsg ("Logged in as " ++ h ++ " (" ++ d ++ ")"),
      Event.statusUpdate "Login Successful!"], true)
  | .errProto msg =>
    ([Event.statusStart label, Event.writeMsg ("Attempting login for " ++ handle ++ "..."),
      Event.errorMsg ("Login failed for Account " ++ acct ++ ": " ++ msg),
      Event.statusUpdate "Login Failed!"], false)
  | .errOther msg =>
    ([Event.statusStart label, Event.writeMsg ("Attempting login for " ++ handle ++ "..."),
      Event.errorMsg ("An unexpected error occurred during Account " ++ acct ++ " login: " ++ msg),
      Event.statusUpdate "Login Failed!"], false)

/-- Step 2 of the button handler: fetch the members, then report the count
on success or the fatal error on failure. -/
def fetchStage (listUri : String) (responses : List FetchResult) :
    List Event × Option (List String) :=
  match (get_list_members listUri responses).1 with
  | some ms =>
    (Event.statusStart ("Fetching members from list " ++ listUri ++ "...")
        :: (get_list_members listUri responses).2
        ++ [Event.writeMsg ("Found " ++ toString ms.length ++ " members in the source list."),
            Event.statusUpdate "Fetched Members Successfully!"], some ms)
  | none =>
    (Event.statusStart ("Fetching members from list " ++ listUri ++ "...")
        :: (get_list_members listUri responses).2
        ++ [Event.errorMsg "Failed to fetch members. Cannot continue.",
            Event.statusUpdate "Fetching Members Failed!"], none)

/-- The events `create_new_list` itself emits around its `create_record`
call, with its `str | None` return value. -/
def createCall : CreateResult → List Event × Option String
  | .ok uri => ([Event.createListCall,
      Event.successMsg ("Successfully created new list: " ++ uri)], some uri)
  | .errProto msg => ([Event.createListCall,
      Event.errorMsg ("Error creating new list: " ++ msg)], none)
  | .errOther msg => ([Event.createListCall,
      Event.errorMsg ("An unexpected error occurred while creating the list: " ++ msg)], none)

/-- Step 4 of the button handler: run `create_new_list`, then branch on the
truthiness of the returned URI (`if new_list_uri:` — `None` and the empty
string both fail). -/
def createStage (name : String) (r : CreateResult) : List Event × Option String :=
  match (createCall r).2 with
  | some uri =>
    if uri = "" then
      (Event.statusStart ("Creating new list \x27" ++ name ++ "\x27 on Account B...")
          :: (createCall r).1
          ++ [Event.errorMsg "Failed to create the new list. Cannot continue.",
              Event.statusUpdate "List Creation Failed!"], none)
    else
      (Event.statusStart ("Creating new list \x27" ++ name ++ "\x27 on Account B...")
          :: (createCall r).1
          ++ [Event.writeMsg ("New list created with URI: " ++ uri),
              Event.statusUpdate "List Creation Successful!"], some uri)
  | none =>
    (Event.statusStart ("Creating new list \x27" ++ name ++ "\x27 on Account B...")
        :: (createCall r).1
        ++ [Event.errorMsg "Failed to create the new list. Cannot continue.",
            Event.statusUpdate "List Creation Failed!"], none)

/-- The closing `st.error` when any of steps 1-4 failed. -/
def stoppedErr : Event := Event.errorMsg "Migration process stopped due to errors."

/-- The "Migrate List" button handler: validation, then the four stages
with `migration_ok` short-circuiting, then step 5, which runs the member
replication only when the member list and the new list URI are both truthy
and otherwise warns that there is nothing to add. -/
def migrate (env : Env) : List Event :=
  if requiredPresent env.inputs = false then
    [Event.errorMsg "Please fill in all required fields."]
  else
    if (loginStage "Logging into Source Account (Account A)..." "A"
          env.inputs.sourceHandle env.sourceLogin).2 = false then
      (loginStage "Logging into Source Account (Account A)..." "A"
          env.inputs.sourceHandle env.sourceLogin).1 ++ [stoppedErr]
    else
      (loginStage "Logging into Source Account (Account A)..." "A"
          env.inputs.sourceHandle env.sourceLogin).1
        ++
        match (fetchStage env.inputs.sourceListUri env.pages).2 with
        | none => (fetchStage env.inputs.sourceListUri env.pages).1 ++ [stoppedErr]
        | some ms =>
          (fetchStage env.inputs.sourceListUri env.pages).1
            ++
            if (loginStage "Logging into Destination Account (Account B)..." "B"
                  env.inputs.destHandle env.destLogin).2 = false then
              (loginStage "Logging into Destination Account (Account B)..." "B"
                  env.inputs.destHandle env.destLogin).1 ++ [stoppedErr]
            else
              (loginStage "Logging into Destination Account (Account B)..." "B"
                  env.inputs.destHandle env.destLogin).1
                ++
                match (createStage env.inputs.destListName env.createResult).2 with
                | none => (createStage env.inputs.destListName env.createResult).1 ++ [stoppedErr]
                | some _ =>
                  (createStage env.inputs.destListName env.createResult).1
                    ++
                    if ms.isEmpty then
                      [Event.warnMsg ("No members found in the source list or new list "
                        ++ "wasn\x27t created. Nothing to add.")]
                    else
                      Event.infoMsg ("Starting to add " ++ toString ms.length
                          ++ " members to the new list. This may take a while...")
                        :: (add_members_to_list env.addOutcome ms).2
                        ++ [Event.successMsg ("Finished adding members. Successfully added: "
                            ++ toString (add_members_to_list env.addOutcome ms).1.1
                            ++ ", Failed: "
                            ++ toString (add_members_to_list env.addOutcome ms).1.2)]

/-- Whether an event is a pure operator-facing message (no remote call, no
progress-bar activity). -/
def isMsgEvent : Event → Bool
  | Event.statusStart _ => true
  | Event.statusUpdate _ => true
  | Event.writeMsg _ => true
  | Event.errorMsg _ => true
  | Event.warnMsg _ => true
  | Event.infoMsg _ => true
  | Event.successMsg _ => true
  | _ => false

/-- The message text carried by an operator-facing event, if any. -/
def eventText : Event → Option String
  | Event.statusStart s => some s
  | Event.statusUpdate s => some s
  | Event.writeMsg s => some s
  | Event.errorMsg s => some s
  | Event.warnMsg s => some s
  | Event.infoMsg s => some s
  | Event.successMsg s => some s
  | _ => none

/-- A filled-in form used by the concrete runs below. -/
def inputsW : Inputs :=
  ⟨"a.bsky.social", "pw1", "at://l", "b.bsky.social", "pw2", "MyList", "curatelist", ""⟩

/-- A fully successful run environment: one page of one member. -/
def envHappy : Env :=
  { inputs := inputsW
    sourceLogin := LoginResult.ok "a.bsky.social" "did:a"
    pages := [FetchResult.ok (some ⟨["d1"], none⟩)]
    destLogin := LoginResult.ok "b.bsky.social" "did:b"
    createResult := CreateResult.ok "at://newlist"
    addOutcome := fun _ => AddOutcome.ok }

/-- The same run with the destination login failing. -/
def envDestFail : Env := { envHappy with destLogin := LoginResult.errProto "bad password" }

/-- The same run with an empty source list (first page has zero items). -/
def envEmptySource : Env := { envHappy with pages := [FetchResult.ok (some ⟨[], none⟩)] }

/-- The `st.error` text a failed login reports for the given account, by
exception kind (`none` for a successful login), matching the two `except`
branches of each login step of the button handler. -/
def loginFailMsg (acct : String) : LoginResult → Option String
  | LoginResult.ok _ _ => none
  | LoginResult.errProto m => some ("Login failed for Account " ++ acct ++ ": " ++ m)
  | LoginResult.errOther m =>
    some ("An unexpected error occurred during Account " ++ acct ++ " login: " ++ m)

/-- The happy run with the destination login raising a generic (non-protocol)
exception. -/
def envDestFailOther : Env :=
  { envHappy with destLogin := LoginResult.errOther "socket timeout" }

lemma getListMembersGo_events_error (listUri : String) :
    ∀ (responses : List FetchResult) (acc : List String) (e : Event),
      e ∈ (getListMembersGo listUri responses acc).2 → ∃ m, e = Event.errorMsg m := by
  intro responses
  induction responses with
  | nil => intro acc e he; simp [getListMembersGo] at he
  | cons r rest ih =>
    intro acc e he
    match r with
    | FetchResult.err proto msg =>
      cases proto <;> simp [getListMembersGo, fetchErrEvent] at he <;> exact ⟨_, he⟩
    | FetchResult.ok none => simp [getListMembersGo] at he
    | FetchResult.ok (some p) =>
      by_cases hi : p.items.isEmpty
      · simp [getListMembersGo, hi] at he
      · by_cases hc : cursorFalsy p.cursor
        · simp [getListMembersGo, hi, hc] at he
        · simp only [getListMembersGo, hi, hc, Bool.false_eq_true, if_false] at he
          exact ih _ e he

lemma getListMembersGo_concat (listUri : String) (t : Page) (rest : List FetchResult)
    (ht : t.items = [] ∨ cursorFalsy t.cursor = true) :
    ∀ (pre : List Page) (acc : List String),
      (∀ p ∈ pre, pageNonTerminal p) →
      getListMembersGo listUri
          (pre.map (fun p => FetchResult.ok (some p)) ++ FetchResult.ok (some t) :: rest) acc
        = (some (acc ++ (pageConcat pre ++ t.items)), []) := by
  intro pre
  induction pre with
  | nil =>
    intro acc _
    rcases ht with h | h
    · simp [getListMembersGo, pageConcat, h]
    · by_cases hi : t.items.isEmpty
      · have : t.items = [] := by simpa [List.isEmpty_iff] using hi
        simp [getListMembersGo, hi, pageConcat, this]
      · simp [getListMembersGo, hi, h, pageConcat]
  | cons p ps ih =>
    intro acc hpre
    have h1 : p.items ≠ [] := (hpre p (by simp)).1
    have h2 : cursorFalsy p.cursor = false := (hpre p (by simp)).2
    have hi : p.items.isEmpty = false := by simpa [List.isEmpty_iff] using h1
    have ihx := ih (acc ++ p.items) (fun q hq => hpre q (by simp [hq]))
    simp only [List.map_cons, List.cons_append, getListMembersGo, hi, h2,
      Bool.false_eq_true, if_false, List.append_eq, pageConcat]
    rw [ihx]
    simp [List.append_assoc]

/-- Claim C1 (amended): for every run of the pagination loop over responses
consisting of non-terminal pages followed by a first terminal page (empty
item list, or absent/null/empty-string cursor) and arbitrary further
responses, `get_list_members` returns exactly the concatenation of the
member identifiers of the pages it fetched, in server order, with no member
dropped or duplicated, terminating on that first terminal page. -/
theorem get_list_members_concat_pages (listUri : String) (pre : List Page) (t : Page)
    (rest : List FetchResult)
    (hpre : ∀ p ∈ pre, pageNonTerminal p)
    (ht : t.items = [] ∨ cursorFalsy t.cursor = true) :
    get_list_members listUri
        (pre.map (fun p => FetchResult.ok (some p)) ++ FetchResult.ok (some t) :: rest)
      = (some (pageConcat pre ++ t.items), []) := by
  have h := getListMembersGo_concat listUri t rest ht pre [] hpre
  simpa [get_list_members] using h

/-- Witness for C1: two full pages then a final page with an absent cursor
yield the three members in order. -/
theorem get_list_members_concat_pages_witness :
    get_list_members "at://l"
        (([⟨["d1"], some "c1"⟩, ⟨["d2"], some "c2"⟩] : List Page).map
            (fun p => FetchResult.ok (some p))
          ++ FetchResult.ok (some ⟨["d3"], none⟩) :: [])
      = (some (pageConcat [⟨["d1"], some "c1"⟩, ⟨["d2"], some "c2"⟩] ++ ["d3"]), []) :=
  get_list_members_concat_pages "at://l" _ _ _ (by decide) (by decide)

/-- Claim C1 counterexample: on a page carrying a present but empty-string
cursor the loop stops (Python falsiness), although the claim's stated
termination condition (cursor absent/null, or empty item list) says the
listing should continue to the next page; the claimed result would be
`some ["d1", "d2"]`, but the code returns `some ["d1"]`. -/
theorem get_list_members_empty_string_cursor_stops :
    (get_list_members "at://l"
        [FetchResult.ok (some ⟨["d1"], some ""⟩), FetchResult.ok (some ⟨["d2"], none⟩)]).1
      = some ["d1"]
    ∧ ((get_list_members "at://l"
        [FetchResult.ok (some ⟨["d1"], some ""⟩), FetchResult.ok (some ⟨["d2"], none⟩)]).1
        == some ["d1", "d2"]) = false := by decide

lemma getListMembersGo_err (listUri : String) (proto : Bool) (msg : String)
    (rest : List FetchResult) :
    ∀ (pre : List Page) (acc : List String),
      (∀ p ∈ pre, pageNonTerminal p) →
      getListMembersGo listUri
          (pre.map (fun p => FetchResult.ok (some p)) ++ FetchResult.err proto msg :: rest) acc
        = (none, [fetchErrEvent listUri proto msg]) := by
  intro pre
  induction pre with
  | nil => intro acc _; simp [getListMembersGo]
  | cons p ps ih =>
    intro acc hpre
    have h1 : p.items ≠ [] := (hpre p (by simp)).1
    have h2 : cursorFalsy p.cursor = false := (hpre p (by simp)).2
    have hi : p.items.isEmpty = false := by simpa [List.isEmpty_iff] using h1
    have ihx := ih (acc ++ p.items) (fun q hq => hpre q (by simp [hq]))
    simp only [List.map_cons, List.cons_append, getListMembersGo, hi, h2,
      Bool.false_eq_true, if_false, List.append_eq]
    exact ihx

/-- Claim C2: if any page fetch raises, `get_list_members` returns `none`
(not a partial list of the pages fetched so far) and surfaces a single
`st.error`; the result does not depend on any response after the failing
one, so the failed page is not retried. -/
theorem get_list_members_fetch_error_aborts (listUri : String) (pre : List Page)
    (proto : Bool) (msg : String) (rest : List FetchResult)
    (hpre : ∀ p ∈ pre, pageNonTerminal p) :
    get_list_members listUri
        (pre.map (fun p => FetchResult.ok (some p)) ++ FetchResult.err proto msg :: rest)
      = (none, [fetchErrEvent listUri proto msg]) :=
  getListMembersGo_err listUri proto msg rest pre [] hpre

/-- Witness for C2: a successful first page followed by a protocol error
yields no member list and one error message, whatever responses follow. -/
theorem get_list_members_fetch_error_aborts_witness :
    get_list_members "at://l"
        (([⟨["d1"], some "c1"⟩] : List Page).map (fun p => FetchResult.ok (some p))
          ++ FetchResult.err true "boom" :: [FetchResult.ok (some ⟨["d2"], none⟩)])
      = (none, [fetchErrEvent "at://l" true "boom"]) :=
  get_list_members_fetch_error_aborts "at://l" _ true "boom" _ (by decide)

lemma addMembersGo_sum (outcome : Nat → AddOutcome) (total : Nat) :
    ∀ (members : List String) (i s f : Nat),
      (addMembersGo outcome total members i s f).1.1
          + (addMembersGo outcome total members i s f).1.2
        = s + f + members.length := by
  intro members
  induction members with
  | nil => intro i s f; simp [addMembersGo]
  | cons d rest ih =>
    intro i s f
    cases houtcome : outcome i <;>
      simp only [addMembersGo, houtcome] <;>
      rw [ih] <;> simp <;> omega

lemma addMembersGo_attempted (outcome : Nat → AddOutcome) (total : Nat) :
    ∀ (members : List String) (i s f : Nat),
      attemptedDids (addMembersGo outcome total members i s f).2 = members := by
  intro members
  induction members with
  | nil => intro i s f; simp [addMembersGo, attemptedDids]
  | cons d rest ih =>
    intro i s f
    cases houtcome : outcome i <;>
      simp only [addMembersGo, houtcome, attemptedDids, List.filterMap_cons] <;>
      exact congrArg (d :: ·) (ih (i+1) _ _)

lemma addMembersGo_failures (outcome : Nat → AddOutcome) (total : Nat) :
    ∀ (members : List String) (i s f : Nat),
      (addMembersGo outcome total members i s f).1.2 = f + failTally outcome i members.length := by
  intro members
  induction members with
  | nil => intro i s f; simp [addMembersGo, failTally]
  | cons d rest ih =>
    intro i s f
    cases houtcome : outcome i <;>
      simp [addMembersGo, houtcome, failTally, AddOutcome.isOk, ih] <;> omega

lemma addMembersGo_warned (outcome : Nat → AddOutcome) (total : Nat) :
    ∀ (members : List String) (i s f : Nat) (j : Nat) (did : String),
      members[j]? = some did → (outcome (i + j)).isOk = false →
      Event.warnMsg (warnText did (outcome (i + j))) ∈ (addMembersGo outcome total members i s f).2 := by
  intro members
  induction members with
  | nil => intro i s f j did hj _; simp at hj
  | cons d rest ih =>
    intro i s f j did hj hfail
    cases j with
    | zero =>
      simp only [List.getElem?_cons_zero, Option.some.injEq] at hj
      subst hj
      rw [Nat.add_zero] at hfail ⊢
      cases houtcome : outcome i with
      | ok => rw [houtcome] at hfail; simp [AddOutcome.isOk] at hfail
      | protoErr m => simp [addMembersGo, houtcome]
      | otherErr m => simp [addMembersGo, houtcome]
    | succ k =>
      simp only [List.getElem?_cons_succ] at hj
      have hrw : i + (k + 1) = (i + 1) + k := by omega
      rw [hrw] at hfail ⊢
      have hmem := ih (i+1) (s+1) f k did hj hfail
      have hmem2 := ih (i+1) s (f+1) k did hj hfail
      cases houtcome : outcome i <;> simp [addMembersGo, houtcome, hmem, hmem2]

/-- Claim C3: for every member list and every mix of per-item successes and
failures, `add_members_to_list` returns a success/failure pair summing to
the length of the input list. -/
theorem add_members_counts_sum (outcome : Nat → AddOutcome) (members : List String) :
    (add_members_to_list outcome members).1.1 + (add_members_to_list outcome members).1.2
      = members.length := by
  have h := addMembersGo_sum outcome members.length members 0 0 0
  simpa [add_members_to_list] using h

/-- Claim C4: a failure on one item never halts the loop; the function is
total (the embedding returns for every outcome mix, exceptions being
contained per item), every member of the input is attempted with its own
`create_record` call in order, the failure count is exactly the number of
failing items, and every failing item gets its warning message. -/
theorem add_members_failures_contained (outcome : Nat → AddOutcome) (members : List String) :
    attemptedDids (add_members_to_list outcome members).2 = members
    ∧ (add_members_to_list outcome members).1.2 = failTally outcome 0 members.length
    ∧ ∀ (j : Nat) (did : String), members[j]? = some did → (outcome j).isOk = false →
        Event.warnMsg (warnText did (outcome j)) ∈ (add_members_to_list outcome members).2 := by
  refine ⟨?_, ?_, ?_⟩
  · have h := addMembersGo_attempted outcome members.length members 0 0 0
    simp only [add_members_to_list, attemptedDids, List.filterMap_cons,
      List.filterMap_append] at h ⊢
    simpa using h
  · have h := addMembersGo_failures outcome members.length members 0 0 0
    simpa [add_members_to_list] using h
  · intro j did hj hfail
    have h := addMembersGo_warned outcome members.length members 0 0 0 j did hj
      (by simpa using hfail)
    rw [Nat.zero_add] at h
    simp [add_members_to_list, h]

/-- Witness for C4: with three members and a protocol failure on the middle
one, members before and after the failure are still attempted, the failure
is counted once, and the warning for the failed member is emitted. -/
theorem add_members_failures_contained_witness :
    attemptedDids (add_members_to_list
        (fun i => if i = 1 then AddOutcome.protoErr "boom" else AddOutcome.ok)
        ["d1", "d2", "d3"]).2 = ["d1", "d2", "d3"]
    ∧ Event.warnMsg (warnText "d2" (AddOutcome.protoErr "boom"))
        ∈ (add_members_to_list
            (fun i => if i = 1 then AddOutcome.protoErr "boom" else AddOutcome.ok)
            ["d1", "d2", "d3"]).2 := by
  have h := add_members_failures_contained
    (fun i => if i = 1 then AddOutcome.protoErr "boom" else AddOutcome.ok) ["d1", "d2", "d3"]
  exact ⟨h.1, h.2.2 1 "d2" (by decide) (by decide)⟩

/-- Claim C10: called on an empty member list, `add_members_to_list`
returns exactly `(0, 0)`, issues no `create_record` call, and emits no
in-loop progress update, so the `(i + 1) / total` fraction — the only
division by the total — is never computed and the empty input causes no
division-by-zero error. -/
theorem add_members_empty_list (outcome : Nat → AddOutcome) :
    (add_members_to_list outcome []).1 = (0, 0)
    ∧ attemptedDids (add_members_to_list outcome []).2 = []
    ∧ (add_members_to_list outcome []).2.filter isProgressUpd = [] :=
  ⟨rfl, rfl, rfl⟩

lemma natDigitsGo_isDigit :
    ∀ (fuel n : Nat) (c : Char), c ∈ natDigitsGo fuel n → c.isDigit = true := by
  have hd : ∀ k, k < 10 → (Nat.digitChar k).isDigit = true := by decide
  intro fuel
  induction fuel with
  | zero => intro n c hc; simp [natDigitsGo] at hc
  | succ m ih =>
    intro n c hc
    by_cases hn : n < 10
    · simp [natDigitsGo, hn] at hc
      subst hc
      exact hd n hn
    · simp only [natDigitsGo, hn, if_false, List.mem_append, List.mem_singleton] at hc
      rcases hc with hc | hc
      · exact ih _ _ hc
      · subst hc
        exact hd _ (Nat.mod_lt _ (by omega))

lemma padNum_isDigit (width n : Nat) (c : Char) (hc : c ∈ padNum width n) :
    c.isDigit = true := by
  simp only [padNum, List.mem_append, List.mem_replicate] at hc
  rcases hc with hc | hc
  · rw [hc.2]; decide
  · exact natDigitsGo_isDigit _ _ _ hc

lemma padNum_all_tsCharOk (width n : Nat) : (padNum width n).all tsCharOk = true := by
  rw [List.all_eq_true]
  intro c hc
  simp [tsCharOk, padNum_isDigit width n c hc]

lemma padNum_all_tsCharNoDot (width n : Nat) : (padNum width n).all tsCharNoDot = true := by
  rw [List.all_eq_true]
  intro c hc
  simp [tsCharNoDot, padNum_isDigit width n c hc]

lemma isoDateTimeChars_all (t : UtcTime) : (isoDateTimeChars t).all tsCharOk = true := by
  have s1 : tsCharOk '-' = true := by decide
  have s2 : tsCharOk ':' = true := by decide
  have s3 : tsCharOk 'T' = true := by decide
  have s4 : tsCharOk '.' = true := by decide
  by_cases hm : t.microsecond = 0 <;>
    simp [isoDateTimeChars, hm, List.all_append, List.all_cons,
      padNum_all_tsCharOk, s1, s2, s3, s4]

lemma isoDateTimeChars_no_plus (t : UtcTime) (c : Char) (hc : c ∈ isoDateTimeChars t) :
    c ≠ '+' := by
  have hall := isoDateTimeChars_all t
  rw [List.all_eq_true] at hall
  intro hp
  subst hp
  exact absurd (hall _ hc) (by decide)

lemma isoDateTimeChars_no_dot (t : UtcTime) (hm : t.microsecond = 0) :
    '.' ∉ isoDateTimeChars t := by
  have s1 : tsCharNoDot '-' = true := by decide
  have s2 : tsCharNoDot ':' = true := by decide
  have s3 : tsCharNoDot 'T' = true := by decide
  have hall : (isoDateTimeChars t).all tsCharNoDot = true := by
    simp [isoDateTimeChars, hm, List.all_append, List.all_cons,
      padNum_all_tsCharNoDot, s1, s2, s3]
  intro hc
  rw [List.all_eq_true] at hall
  exact absurd (hall _ hc) (by decide)

lemma isoDateTimeChars_has_dot (t : UtcTime) (hm : t.microsecond ≠ 0) :
    '.' ∈ isoDateTimeChars t := by
  simp [isoDateTimeChars, hm]

lemma replaceAllGo_nil (pat rep : List Char) (fuel : Nat) :
    replaceAllGo pat rep fuel [] = [] := by
  cases fuel <;> rfl

/-- If the pattern starts with a character absent from `body`, replacing in
`body ++ pat` replaces exactly the final occurrence. -/
lemma replaceAllGo_tail (p0 : Char) (pt rep : List Char) :
    ∀ (body : List Char) (fuel : Nat), body.length + 1 ≤ fuel →
      (∀ c ∈ body, c ≠ p0) →
      replaceAllGo (p0 :: pt) rep fuel (body ++ p0 :: pt) = body ++ rep := by
  intro body
  induction body with
  | nil =>
    intro fuel hfuel _
    match fuel, hfuel with
    | m+1, _ =>
      have hpre : (p0 :: pt).isPrefixOf (p0 :: pt) = true := by
        simp [List.isPrefixOf_iff_prefix]
      simp [replaceAllGo, hpre, List.drop_length, replaceAllGo_nil]
  | cons b bs ih =>
    intro fuel hfuel hb
    match fuel, hfuel with
    | m+1, hfuel =>
      have hbp : b ≠ p0 := hb b (by simp)
      have hpre : (p0 :: pt).isPrefixOf (b :: (bs ++ p0 :: pt)) = false := by
        rw [Bool.eq_false_iff]
        intro habs
        rw [List.isPrefixOf_iff_prefix, List.cons_prefix_cons] at habs
        exact absurd habs.1.symm hbp
      have ihx := ih m (by simpa using Nat.lt_succ_iff.mp hfuel)
        (fun c hc => hb c (by simp [hc]))
      simp [replaceAllGo, hpre, ihx]

/-- The stamped `createdAt` is the isoformat body with the `+00:00` suffix
replaced by `Z`. -/
lemma stampChars_eq (t : UtcTime) : stampChars t = isoDateTimeChars t ++ ['Z'] := by
  have h := replaceAllGo_tail '+' ['0', '0', ':', '0', '0'] ['Z'] (isoDateTimeChars t)
    ((isoDateTimeChars t ++ utcOffsetChars).length + 1)
    (by rw [List.length_append]; omega)
    (fun c hc => isoDateTimeChars_no_plus t c hc)
  simpa [stampChars, replaceAll, isoformatChars, utcOffsetChars] using h

/-- Claim C5: the stored purpose is always the namespaced tag — raw input
"curatelist" is stored as "app.bsky.graph.defs#curatelist", and any input
already starting with the namespace tag passes through unchanged. -/
theorem create_list_purpose_namespaced (name desc : String) (now : UtcTime) :
    (create_list_record name desc "curatelist" now).purpose = "app.bsky.graph.defs#curatelist"
    ∧ ∀ p : String, strStartsWith p graphDefsNs = true →
        (create_list_record name desc p now).purpose = p := by
  constructor
  · have h : strStartsWith "curatelist" "app.bsky.graph.defs#" = false := by decide
    simp [create_list_record, normalizePurpose, graphDefsNs, h]
  · intro p hp
    simp [create_list_record, normalizePurpose, hp]

/-- Witness for C5 at the raw value and at an already-namespaced value. -/
theorem create_list_purpose_namespaced_witness :
    (create_list_record "n" "d" "curatelist" ⟨2024, 1, 2, 3, 4, 5, 0⟩).purpose
        = "app.bsky.graph.defs#curatelist"
    ∧ (create_list_record "n" "d" "app.bsky.graph.defs#modlist"
          ⟨2024, 1, 2, 3, 4, 5, 0⟩).purpose
        = "app.bsky.graph.defs#modlist" :=
  ⟨(create_list_purpose_namespaced "n" "d" ⟨2024, 1, 2, 3, 4, 5, 0⟩).1,
    (create_list_purpose_namespaced "n" "d" ⟨2024, 1, 2, 3, 4, 5, 0⟩).2
      "app.bsky.graph.defs#modlist" (by decide)⟩

/-- Claim C6 (amended): every `createdAt` stamped by `create_new_list` and
by `add_members_to_list` is the UTC isoformat body with the `+00:00` offset
replaced by a literal final "Z"; it carries a fractional-second part
exactly when the clock's microsecond component is nonzero, so it is in
subsecond-free form only when the microseconds are exactly zero. -/
theorem created_at_utc_z_suffix (name desc purpose subjectDid listUri : String) (now : UtcTime) :
    (create_list_record name desc purpose now).createdAt.toList
        = isoDateTimeChars now ++ ['Z']
    ∧ (create_list_item_record subjectDid listUri now).createdAt.toList
        = isoDateTimeChars now ++ ['Z']
    ∧ ('.' ∈ (stampTimestamp now).toList ↔ 0 < now.microsecond) := by
  have hs : (stampTimestamp now).toList = isoDateTimeChars now ++ ['Z'] := by
    simp [stampTimestamp, stampChars_eq]
  refine ⟨hs, hs, ?_⟩
  rw [hs]
  constructor
  · intro hc
    rcases List.mem_append.mp hc with h | h
    · rcases Nat.eq_zero_or_pos now.microsecond with hm | hm
      · exact absurd h (isoDateTimeChars_no_dot now hm)
      · exact hm
    · simp at h
  · intro hm
    exact List.mem_append.mpr (Or.inl (isoDateTimeChars_has_dot now (by omega)))

/-- Claim C6 counterexample: at a clock reading with nonzero microseconds
(the common case for a real clock), the stamped `createdAt` contains a
six-digit fractional-second part, so it is not in strict subsecond-free
form; it does end in "Z". -/
theorem created_at_not_subsecond_free :
    (create_list_record "n" "d" "curatelist" ⟨2024, 1, 2, 3, 4, 5, 123456⟩).createdAt
        = "2024-01-02T03:04:05.123456Z"
    ∧ '.' ∈ (create_list_record "n" "d" "curatelist"
        ⟨2024, 1, 2, 3, 4, 5, 123456⟩).createdAt.toList := by decide

lemma get_list_members_events_error (listUri : String) (responses : List FetchResult)
    (e : Event) (he : e ∈ (get_list_members listUri responses).2) :
    ∃ m, e = Event.errorMsg m :=
  getListMembersGo_events_error listUri responses [] e he

lemma loginStage_msgs (label acct handle : String) (r : LoginResult) (e : Event)
    (he : e ∈ (loginStage label acct handle r).1) : isMsgEvent e = true := by
  cases r <;> simp only [loginStage, List.mem_cons, List.not_mem_nil, or_false] at he <;>
    rcases he with rfl | rfl | rfl | rfl <;> rfl

lemma fetchStage_msgs (listUri : String) (responses : List FetchResult) (e : Event)
    (he : e ∈ (fetchStage listUri responses).1) : isMsgEvent e = true := by
  cases hf : (get_list_members listUri responses).1 with
  | none =>
    simp only [fetchStage, hf, List.mem_cons, List.mem_append, List.not_mem_nil,
      or_false] at he
    rcases he with (rfl | he) | rfl | rfl
    · rfl
    · obtain ⟨m, rfl⟩ := get_list_members_events_error listUri responses e he
      rfl
    · rfl
    · rfl
  | some ms =>
    simp only [fetchStage, hf, List.mem_cons, List.mem_append, List.not_mem_nil,
      or_false] at he
    rcases he with (rfl | he) | rfl | rfl
    · rfl
    · obtain ⟨m, rfl⟩ := get_list_members_events_error listUri responses e he
      rfl
    · rfl
    · rfl

lemma createStage_msgs (name : String) (r : CreateResult) (e : Event)
    (he : e ∈ (createStage name r).1) :
    isMsgEvent e = true ∨ e = Event.createListCall := by
  have hcall : ∀ x ∈ (createCall r).1, isMsgEvent x = true ∨ x = Event.createListCall := by
    intro x hx
    cases r <;> simp only [createCall, List.mem_cons, List.not_mem_nil, or_false] at hx <;>
      rcases hx with rfl | rfl <;> simp [isMsgEvent]
  cases hc : (createCall r).2 with
  | none =>
    simp only [createStage, hc, List.mem_cons, List.mem_append, List.not_mem_nil,
      or_false] at he
    rcases he with (rfl | he) | rfl | rfl
    · exact Or.inl rfl
    · exact hcall e he
    · exact Or.inl rfl
    · exact Or.inl rfl
  | some uri =>
    by_cases hu : uri = "" <;>
      simp only [createStage, hc, hu, if_true, if_false, List.mem_cons, List.mem_append,
        List.not_mem_nil, or_false, ite_true, ite_false] at he <;>
      rcases he with (rfl | he) | rfl | rfl <;>
      first
        | exact Or.inl rfl
        | exact hcall e he

lemma msg_not_add {e : Event} (h : isMsgEvent e = true) (d : String) :
    e ≠ Event.memberAddCall d := by
  intro he; subst he; simp [isMsgEvent] at h

lemma msg_not_create {e : Event} (h : isMsgEvent e = true) :
    e ≠ Event.createListCall := by
  intro he; subst he; simp [isMsgEvent] at h

lemma loginStage_no_add (label acct handle : String) (r : LoginResult) (d : String) :
    Event.memberAddCall d ∉ (loginStage label acct handle r).1 :=
  fun hm => msg_not_add (loginStage_msgs label acct handle r _ hm) d rfl

lemma fetchStage_no_add (listUri : String) (responses : List FetchResult) (d : String) :
    Event.memberAddCall d ∉ (fetchStage listUri responses).1 :=
  fun hm => msg_not_add (fetchStage_msgs listUri responses _ hm) d rfl

lemma createStage_no_add (name : String) (r : CreateResult) (d : String) :
    Event.memberAddCall d ∉ (createStage name r).1 := by
  intro hm
  rcases createStage_msgs name r _ hm with h | h
  · exact msg_not_add h d rfl
  · simp at h

lemma loginStage_no_create (label acct handle : String) (r : LoginResult) :
    Event.createListCall ∉ (loginStage label acct handle r).1 :=
  fun hm => msg_not_create (loginStage_msgs label acct handle r _ hm) rfl

lemma fetchStage_no_create (listUri : String) (responses : List FetchResult) :
    Event.createListCall ∉ (fetchStage listUri responses).1 :=
  fun hm => msg_not_create (fetchStage_msgs listUri responses _ hm) rfl

lemma createStage_some_ok (name : String) (r : CreateResult) (uri : String)
    (h : (createStage name r).2 = some uri) : r = CreateResult.ok uri ∧ uri ≠ "" := by
  cases r with
  | ok u =>
    by_cases hu : u = ""
    · simp [createStage, createCall, hu] at h
    · simp only [createStage, createCall, hu, if_false, ite_false] at h
      simp only [Option.some.injEq] at h
      subst h
      exact ⟨rfl, hu⟩
  | errProto m => simp [createStage, createCall] at h
  | errOther m => simp [createStage, createCall] at h

lemma createStage_has_call (name : String) (r : CreateResult) (uri : String)
    (h : (createStage name r).2 = some uri) :
    Event.createListCall ∈ (createStage name r).1 := by
  obtain ⟨rfl, hu⟩ := createStage_some_ok name r uri h
  simp [createStage, createCall, hu]

/-- Claim C7: in every run, a membership-record creation call happens only
if the destination list was successfully created (the create call returned
a truthy URI), and only after the create-list call: the trace splits into a
part containing the create-list call but no membership call, followed by
the rest. -/
theorem member_add_only_after_create (env : Env) (d : String)
    (h : Event.memberAddCall d ∈ migrate env) :
    ∃ uri pre suf, env.createResult = CreateResult.ok uri ∧ uri ≠ ""
      ∧ migrate env = pre ++ suf
      ∧ Event.createListCall ∈ pre
      ∧ ∀ d2, Event.memberAddCall d2 ∉ pre := by
  by_cases hreq : requiredPresent env.inputs = false
  · rw [migrate, if_pos hreq] at h
    simp at h
  · rw [migrate, if_neg hreq] at h
    by_cases h1 : (loginStage "Logging into Source Account (Account A)..." "A"
        env.inputs.sourceHandle env.sourceLogin).2 = false
    · rw [if_pos h1] at h
      rcases List.mem_append.mp h with hm | hm
      · exact absurd hm (loginStage_no_add _ _ _ _ d)
      · simp [stoppedErr] at hm
    · rw [if_neg h1] at h
      rcases hf : (fetchStage env.inputs.sourceListUri env.pages).2 with _ | ms
      · simp only [hf] at h
        rcases List.mem_append.mp h with hm | hm
        · exact absurd hm (loginStage_no_add _ _ _ _ d)
        · rcases List.mem_append.mp hm with hm2 | hm2
          · exact absurd hm2 (fetchStage_no_add _ _ d)
          · simp [stoppedErr] at hm2
      · simp only [hf] at h
        by_cases h3 : (loginStage "Logging into Destination Account (Account B)..." "B"
            env.inputs.destHandle env.destLogin).2 = false
        · rw [if_pos h3] at h
          rcases List.mem_append.mp h with hm | hm
          · exact absurd hm (loginStage_no_add _ _ _ _ d)
          · rcases List.mem_append.mp hm with hm2 | hm2
            · exact absurd hm2 (fetchStage_no_add _ _ d)
            · rcases List.mem_append.mp hm2 with hm3 | hm3
              · exact absurd hm3 (loginStage_no_add _ _ _ _ d)
              · simp [stoppedErr] at hm3
        · rw [if_neg h3] at h
          rcases hc : (createStage env.inputs.destListName env.createResult).2 with _ | uri
          · simp only [hc] at h
            rcases List.mem_append.mp h with hm | hm
            · exact absurd hm (loginStage_no_add _ _ _ _ d)
            · rcases List.mem_append.mp hm with hm2 | hm2
              · exact absurd hm2 (fetchStage_no_add _ _ d)
              · rcases List.mem_append.mp hm2 with hm3 | hm3
                · exact absurd hm3 (loginStage_no_add _ _ _ _ d)
                · rcases List.mem_append.mp hm3 with hm4 | hm4
                  · exact absurd hm4 (createStage_no_add _ _ d)
                  · simp [stoppedErr] at hm4
          · simp only [hc] at h
            by_cases hms : ms.isEmpty
            · rw [if_pos hms] at h
              rcases List.mem_append.mp h with hm | hm
              · exact absurd hm (loginStage_no_add _ _ _ _ d)
              · rcases List.mem_append.mp hm with hm2 | hm2
                · exact absurd hm2 (fetchStage_no_add _ _ d)
                · rcases List.mem_append.mp hm2 with hm3 | hm3
                  · exact absurd hm3 (loginStage_no_add _ _ _ _ d)
                  · rcases List.mem_append.mp hm3 with hm4 | hm4
                    · exact absurd hm4 (createStage_no_add _ _ d)
                    · simp at hm4
            · obtain ⟨hok, hne⟩ := createStage_some_ok _ _ _ hc
              refine ⟨uri, (loginStage "Logging into Source Account (Account A)..." "A"
                    env.inputs.sourceHandle env.sourceLogin).1
                  ++ ((fetchStage env.inputs.sourceListUri env.pages).1
                  ++ ((loginStage "Logging into Destination Account (Account B)..." "B"
                      env.inputs.destHandle env.destLogin).1
                  ++ (createStage env.inputs.destListName env.createResult).1)),
                  Event.infoMsg ("Starting to add " ++ toString ms.length
                      ++ " members to the new list. This may take a while...")
                    :: (add_members_to_list env.addOutcome ms).2
                    ++ [Event.successMsg ("Finished adding members. Successfully added: "
                        ++ toString (add_members_to_list env.addOutcome ms).1.1
                        ++ ", Failed: "
                        ++ toString (add_members_to_list env.addOutcome ms).1.2)],
                  hok, hne, ?_, ?_, ?_⟩
              · rw [migrate, if_neg hreq, if_neg h1]
                simp only [hf]
                rw [if_neg h3]
                simp only [hc]
                rw [if_neg hms]
                simp [List.append_assoc]
              · simp only [List.mem_append]
                exact Or.inr (Or.inr (Or.inr (createStage_has_call _ _ _ hc)))
              · intro d2 hmem
                rcases List.mem_append.mp hmem with hm | hm
                · exact absurd hm (loginStage_no_add _ _ _ _ d2)
                · rcases List.mem_append.mp hm with hm2 | hm2
                  · exact absurd hm2 (fetchStage_no_add _ _ d2)
                  · rcases List.mem_append.mp hm2 with hm3 | hm3
                    · exact absurd hm3 (loginStage_no_add _ _ _ _ d2)
                    · exact absurd hm3 (createStage_no_add _ _ d2)

/-- Witness for C7: in the fully successful concrete run the membership
call for "d1" occurs, so the split exists. -/
theorem member_add_only_after_create_witness :
    ∃ uri pre suf, envHappy.createResult = CreateResult.ok uri ∧ uri ≠ ""
      ∧ migrate envHappy = pre ++ suf
      ∧ Event.createListCall ∈ pre
      ∧ ∀ d2, Event.memberAddCall d2 ∉ pre :=
  member_add_only_after_create envHappy "d1" (by decide)

lemma str_head_append (a b : String) (c : Char) (h : a.toList.head? = some c) :
    (a ++ b).toList.head? = some c := by
  have hab : (a ++ b).toList = a.toList ++ b.toList := rfl
  rw [hab, List.head?_append, h]
  rfl

lemma ne_dest_label (s : String) (c : Char) (h : s.toList.head? = some c) (hc : c ≠ 'D') :
    s ≠ "Destination Account login" := by
  intro he
  rw [he] at h
  have hd : ("Destination Account login").toList.head? = some 'D' := by decide
  rw [hd] at h
  exact hc (Option.some.inj h).symm

lemma getListMembersGo_events_shape (listUri : String) :
    ∀ (responses : List FetchResult) (acc : List String) (e : Event),
      e ∈ (getListMembersGo listUri responses acc).2 →
      ∃ proto m, e = fetchErrEvent listUri proto m := by
  intro responses
  induction responses with
  | nil => intro acc e he; simp [getListMembersGo] at he
  | cons r rest ih =>
    intro acc e he
    match r with
    | FetchResult.err proto msg =>
      simp only [getListMembersGo, List.mem_singleton] at he
      exact ⟨proto, msg, he⟩
    | FetchResult.ok none => simp [getListMembersGo] at he
    | FetchResult.ok (some p) =>
      by_cases hi : p.items.isEmpty
      · simp [getListMembersGo, hi] at he
      · by_cases hc : cursorFalsy p.cursor
        · simp [getListMembersGo, hi, hc] at he
        · simp only [getListMembersGo, hi, hc, Bool.false_eq_true, if_false] at he
          exact ih _ e he

lemma loginStage_not_dest_label (label acct handle : String) (r : LoginResult)
    (hl : label ≠ "Destination Account login") :
    ∀ e ∈ (loginStage label acct handle r).1,
      eventText e ≠ some "Destination Account login" := by
  intro e he
  cases r <;>
    simp only [loginStage, List.mem_cons, List.not_mem_nil, or_false] at he <;>
    rcases he with rfl | rfl | rfl | rfl <;>
    simp only [eventText, ne_eq, Option.some.injEq]
  all_goals first
    | exact hl
    | decide
    | (refine ne_dest_label _ 'A' ?_ (by decide)
       repeat apply str_head_append
       decide)
    | (refine ne_dest_label _ 'L' ?_ (by decide)
       repeat apply str_head_append
       decide)

lemma fetchStage_not_dest_label (listUri : String) (responses : List FetchResult) :
    ∀ e ∈ (fetchStage listUri responses).1,
      eventText e ≠ some "Destination Account login" := by
  intro e he
  have hgo : ∀ x ∈ (get_list_members listUri responses).2,
      eventText x ≠ some "Destination Account login" := by
    intro x hx
    obtain ⟨proto, m, rfl⟩ := getListMembersGo_events_shape listUri responses [] x hx
    cases proto <;> simp only [fetchErrEvent, eventText, ne_eq, Option.some.injEq]
    · refine ne_dest_label _ 'A' ?_ (by decide)
      repeat apply str_head_append
      decide
    · refine ne_dest_label _ 'E' ?_ (by decide)
      repeat apply str_head_append
      decide
  cases hf : (get_list_members listUri responses).1 with
  | none =>
    simp only [fetchStage, hf, List.mem_cons, List.mem_append, List.not_mem_nil,
      or_false] at he
    rcases he with (rfl | he) | rfl | rfl
    · simp only [eventText, ne_eq, Option.some.injEq]
      refine ne_dest_label _ 'F' ?_ (by decide)
      repeat apply str_head_append
      decide
    · exact hgo e he
    · decide
    · decide
  | some ms =>
    simp only [fetchStage, hf, List.mem_cons, List.mem_append, List.not_mem_nil,
      or_false] at he
    rcases he with (rfl | he) | rfl | rfl
    · simp only [eventText, ne_eq, Option.some.injEq]
      refine ne_dest_label _ 'F' ?_ (by decide)
      repeat apply str_head_append
      decide
    · exact hgo e he
    · simp only [eventText, ne_eq, Option.some.injEq]
      refine ne_dest_label _ 'F' ?_ (by decide)
      repeat apply str_head_append
      decide
    · decide

/-- Claim C8 (amended): in every run where validation passes, the source
login and the member fetch succeed, but the destination login raises —
either an `AtProtocolError` or any other `Exception` — no create-list call
and no membership-record call ever occur, the failure is reported to the
operator through the corresponding error message ("Login failed for
Account B: ..." or "An unexpected error occurred during Account B
login: ...") and the status label "Login Failed!", and no event of the run
carries the literal label "Destination Account login". -/
theorem dest_login_failure_aborts (env : Env) (sh sd : String) (ms : List String) (msg : String)
    (hreq : requiredPresent env.inputs = true)
    (hsl : env.sourceLogin = LoginResult.ok sh sd)
    (hfetch : (get_list_members env.inputs.sourceListUri env.pages).1 = some ms)
    (hdl : loginFailMsg "B" env.destLogin = some msg) :
    Event.createListCall ∉ migrate env
    ∧ (∀ d, Event.memberAddCall d ∉ migrate env)
    ∧ Event.errorMsg msg ∈ migrate env
    ∧ Event.statusUpdate "Login Failed!" ∈ migrate env
    ∧ ∀ e ∈ migrate env, eventText e ≠ some "Destination Account login" := by
  have h1 : (loginStage "Logging into Source Account (Account A)..." "A"
      env.inputs.sourceHandle env.sourceLogin).2 = true := by rw [hsl]; rfl
  have hf2 : (fetchStage env.inputs.sourceListUri env.pages).2 = some ms := by
    simp only [fetchStage, hfetch]
  have h3 : (loginStage "Logging into Destination Account (Account B)..." "B"
      env.inputs.destHandle env.destLogin).2 = false := by
    cases hd : env.destLogin with
    | ok a b => rw [hd] at hdl; simp [loginFailMsg] at hdl
    | errProto m => rfl
    | errOther m => rfl
  have htr : migrate env
      = (loginStage "Logging into Source Account (Account A)..." "A"
          env.inputs.sourceHandle env.sourceLogin).1
        ++ ((fetchStage env.inputs.sourceListUri env.pages).1
        ++ ((loginStage "Logging into Destination Account (Account B)..." "B"
            env.inputs.destHandle env.destLogin).1 ++ [stoppedErr])) := by
    rw [migrate, if_neg (by simp [hreq]), if_neg (by simp [h1])]
    simp only [hf2]
    rw [if_pos h3]
  refine ⟨?_, ?_, ?_, ?_, ?_⟩
  · rw [htr]
    intro hm
    rcases List.mem_append.mp hm with hm | hm
    · exact absurd hm (loginStage_no_create _ _ _ _)
    · rcases List.mem_append.mp hm with hm | hm
      · exact absurd hm (fetchStage_no_create _ _)
      · rcases List.mem_append.mp hm with hm | hm
        · exact absurd hm (loginStage_no_create _ _ _ _)
        · simp [stoppedErr] at hm
  · intro d
    rw [htr]
    intro hm
    rcases List.mem_append.mp hm with hm | hm
    · exact absurd hm (loginStage_no_add _ _ _ _ d)
    · rcases List.mem_append.mp hm with hm | hm
      · exact absurd hm (fetchStage_no_add _ _ d)
      · rcases List.mem_append.mp hm with hm | hm
        · exact absurd hm (loginStage_no_add _ _ _ _ d)
        · simp [stoppedErr] at hm
  · rw [htr]
    refine List.mem_append.mpr (Or.inr (List.mem_append.mpr (Or.inr
      (List.mem_append.mpr (Or.inl ?_)))))
    cases hd : env.destLogin with
    | ok a b => rw [hd] at hdl; simp [loginFailMsg] at hdl
    | errProto m =>
      rw [hd] at hdl
      simp only [loginFailMsg, Option.some.injEq] at hdl
      subst hdl
      simp [loginStage]
    | errOther m =>
      rw [hd] at hdl
      simp only [loginFailMsg, Option.some.injEq] at hdl
      subst hdl
      simp [loginStage]
  · rw [htr]
    refine List.mem_append.mpr (Or.inr (List.mem_append.mpr (Or.inr
      (List.mem_append.mpr (Or.inl ?_)))))
    cases hd : env.destLogin with
    | ok a b => rw [hd] at hdl; simp [loginFailMsg] at hdl
    | errProto m => simp [loginStage]
    | errOther m => simp [loginStage]
  · intro e he
    rw [htr] at he
    rcases List.mem_append.mp he with hm | hm
    · exact loginStage_not_dest_label _ _ _ _ (by decide) e hm
    · rcases List.mem_append.mp hm with hm | hm
      · exact fetchStage_not_dest_label _ _ e hm
      · rcases List.mem_append.mp hm with hm | hm
        · exact loginStage_not_dest_label _ _ _ _ (by decide) e hm
        · simp only [List.mem_singleton] at hm
          subst hm
          decide

/-- Witness for C8, exercising the generic-Exception login-failure branch:
the concrete run whose destination login raises a non-protocol error
reports the Account B unexpected-error message. -/
theorem dest_login_failure_aborts_witness :
    Event.errorMsg "An unexpected error occurred during Account B login: socket timeout"
      ∈ migrate envDestFailOther :=
  (dest_login_failure_aborts envDestFailOther "a.bsky.social" "did:a" ["d1"]
    "An unexpected error occurred during Account B login: socket timeout"
    (by decide) rfl (by decide) (by decide)).2.2.1

/-- Claim C8 counterexample: in the concrete run whose destination login
fails, the ordered trace never carries the literal stage label
"Destination Account login" that the claim names — the code reports the
stage as "Logging into Destination Account (Account B)..." /
"Login failed for Account B: ..." / "Login Failed!" instead. -/
theorem dest_login_stage_label_differs :
    (migrate envDestFail).all
        (fun e => !(eventText e == some "Destination Account login")) = true
    ∧ Event.errorMsg ("Login failed for Account B: bad password") ∈ migrate envDestFail := by
  decide

/-- Claim C9 (amended): in every run where validation passes, both logins
succeed, the list creation returns a truthy URI, and the first page of the
source list has zero items, `get_list_members` returns the empty sequence,
no membership-record call is made and the member-replication loop is never
entered (no progress bar is created), the fetch stage reports
"Found 0 members in the source list.", and the run ends with the
nothing-to-add warning rather than an added/failed summary. -/
theorem empty_source_list_no_adds (env : Env) (sh sd dh dd uri : String)
    (c : Option String) (rest : List FetchResult)
    (hreq : requiredPresent env.inputs = true)
    (hsl : env.sourceLogin = LoginResult.ok sh sd)
    (hp : env.pages = FetchResult.ok (some ⟨[], c⟩) :: rest)
    (hdl : env.destLogin = LoginResult.ok dh dd)
    (hcr : env.createResult = CreateResult.ok uri)
    (hne : uri ≠ "") :
    (get_list_members env.inputs.sourceListUri env.pages).1 = some []
    ∧ (∀ d, Event.memberAddCall d ∉ migrate env)
    ∧ (∀ n, Event.progressStart n ∉ migrate env)
    ∧ Event.writeMsg "Found 0 members in the source list." ∈ migrate env
    ∧ Event.warnMsg ("No members found in the source list or new list "
        ++ "wasn\x27t created. Nothing to add.") ∈ migrate env := by
  have hfetch : (get_list_members env.inputs.sourceListUri env.pages).1 = some [] := by
    rw [hp]; rfl
  have h1 : (loginStage "Logging into Source Account (Account A)..." "A"
      env.inputs.sourceHandle env.sourceLogin).2 = true := by rw [hsl]; rfl
  have hf2 : (fetchStage env.inputs.sourceListUri env.pages).2 = some [] := by
    simp only [fetchStage, hfetch]
  have h3 : (loginStage "Logging into Destination Account (Account B)..." "B"
      env.inputs.destHandle env.destLogin).2 = true := by rw [hdl]; rfl
  have hc2 : (createStage env.inputs.destListName env.createResult).2 = some uri := by
    rw [hcr]
    simp [createStage, createCall, hne]
  have htr : migrate env
      = (loginStage "Logging into Source Account (Account A)..." "A"
          env.inputs.sourceHandle env.sourceLogin).1
        ++ ((fetchStage env.inputs.sourceListUri env.pages).1
        ++ ((loginStage "Logging into Destination Account (Account B)..." "B"
            env.inputs.destHandle env.destLogin).1
        ++ ((createStage env.inputs.destListName env.createResult).1
        ++ [Event.warnMsg ("No members found in the source list or new list "
              ++ "wasn\x27t created. Nothing to add.")]))) := by
    rw [migrate, if_neg (by simp [hreq]), if_neg (by simp [h1])]
    simp only [hf2]
    rw [if_neg (by simp [h3])]
    simp only [hc2]
    rfl
  have hmsg : (fetchStage env.inputs.sourceListUri env.pages).1
      = Event.statusStart ("Fetching members from list " ++ env.inputs.sourceListUri ++ "...")
        :: (get_list_members env.inputs.sourceListUri env.pages).2
        ++ [Event.writeMsg "Found 0 members in the source list.",
            Event.statusUpdate "Fetched Members Successfully!"] := by
    simp only [fetchStage, hfetch]
    rw [show ("Found " ++ toString (List.length ([] : List String))
        ++ " members in the source list.") = "Found 0 members in the source list." from by decide]
  refine ⟨hfetch, ?_, ?_, ?_, ?_⟩
  · intro d
    rw [htr]
    intro hm
    rcases List.mem_append.mp hm with hm | hm
    · exact absurd hm (loginStage_no_add _ _ _ _ d)
    · rcases List.mem_append.mp hm with hm | hm
      · exact absurd hm (fetchStage_no_add _ _ d)
      · rcases List.mem_append.mp hm with hm | hm
        · exact absurd hm (loginStage_no_add _ _ _ _ d)
        · rcases List.mem_append.mp hm with hm | hm
          · exact absurd hm (createStage_no_add _ _ d)
          · simp at hm
  · intro n
    rw [htr]
    intro hm
    rcases List.mem_append.mp hm with hm | hm
    · exact absurd (loginStage_msgs _ _ _ _ _ hm) (by simp [isMsgEvent])
    · rcases List.mem_append.mp hm with hm | hm
      · exact absurd (fetchStage_msgs _ _ _ hm) (by simp [isMsgEvent])
      · rcases List.mem_append.mp hm with hm | hm
        · exact absurd (loginStage_msgs _ _ _ _ _ hm) (by simp [isMsgEvent])
        · rcases List.mem_append.mp hm with hm | hm
          · rcases createStage_msgs _ _ _ hm with hx | hx
            · exact absurd hx (by simp [isMsgEvent])
            · simp at hx
          · simp at hm
  · rw [htr, hmsg]
    simp
  · rw [htr]
    simp

/-- Witness for C9: the concrete empty-source run emits the nothing-to-add
warning. -/
theorem empty_source_list_no_adds_witness :
    Event.warnMsg ("No members found in the source list or new list "
        ++ "wasn\x27t created. Nothing to add.") ∈ migrate envEmptySource :=
  (empty_source_list_no_adds envEmptySource "a.bsky.social" "did:a" "b.bsky.social" "did:b"
    "at://newlist" none [] (by decide) rfl rfl rfl rfl (by decide)).2.2.2.2

/-- Claim C9 counterexample: in the concrete empty-source run the claimed
final summary "0 added, 0 failed" is never reported — the code's summary
message never occurs in the trace; the run ends with the nothing-to-add
warning instead. -/
theorem empty_source_no_final_summary :
    (migrate envEmptySource).all
        (fun e => !(e == Event.successMsg
          "Finished adding members. Successfully added: 0, Failed: 0")) = true
    ∧ Event.warnMsg ("No members found in the source list or new list "
        ++ "wasn\x27t created. Nothing to add.") ∈ migrate envEmptySource := by
  decide

end BskyMig
